import Mathlib

/-!
Verification development for the tsiemens/acb convenience scripts.

The Python sources are shallowly embedded in Lean:
* machine floats and decimals are modelled as rationals,
* raw spreadsheet cells are modelled as optional strings,
* calendar dates are modelled as day numbers where only ordering and
  day arithmetic matter,
* code that raises exceptions is modelled with the Except monad,
* code that prints error messages and continues is modelled by returning
  the list of messages alongside its result.
-/

set_option maxHeartbeats 1000000

namespace PyPrim

/-- Numeric value of a list of decimal digit characters (most significant
first), as produced by a left fold over the digits. -/
def digitsToNat (ds : List Char) : Nat :=
  ds.foldl (fun a c => 10 * a + (c.toNat - 48)) 0

/-- Parse an unsigned decimal literal: digits, optionally followed by a
dot and more digits; at least one digit must be present.  This models the
common grammar accepted by Python float() and Decimal() on the inputs
this pipeline sees. -/
def parseUnsigned (s : List Char) : Option ℚ :=
  let intPart := s.takeWhile Char.isDigit
  let rest := s.dropWhile Char.isDigit
  match rest with
  | [] => if intPart.isEmpty then none else some (mkRat (digitsToNat intPart) 1)
  | '.' :: frac =>
    if frac.all Char.isDigit && !(intPart.isEmpty && frac.isEmpty) then
      some (mkRat (digitsToNat intPart * 10 ^ frac.length + digitsToNat frac)
                  (10 ^ frac.length))
    else none
  | _ => none

/-- Parse a signed decimal literal (optional leading minus or plus). -/
def parseDec (s : List Char) : Option ℚ :=
  match s with
  | '-' :: rest => (parseUnsigned rest).map (fun q => -q)
  | '+' :: rest => parseUnsigned rest
  | _ => parseUnsigned s

/-- Python float(cell) on an optional string cell: None raises a
TypeError, an unparseable string raises a ValueError. -/
def pyFloat (v : Option String) : Except String ℚ :=
  match v with
  | none => .error "TypeError: float() argument must be a string or a real number, not NoneType"
  | some s =>
    match parseDec s.toList with
    | some q => .ok q
    | none => .error ("could not convert string to float: " ++ s)

/-- Python abs() on a float value. -/
def pyAbs (q : ℚ) : ℚ := if q < 0 then -q else q

/-- Python int(q) on a float value: truncation toward zero. -/
def pyTrunc (q : ℚ) : Int :=
  if 0 ≤ q then q.floor else -((-q).floor)

/-- Python str.strip(): drop leading and trailing whitespace. -/
def pyStrip (s : String) : String :=
  String.mk
    (((s.toList.dropWhile Char.isWhitespace).reverse.dropWhile
        Char.isWhitespace).reverse)

/-- True when the string starts with a yyyy-mm-dd shaped prefix
(the regex of QuestradeSheet.date_regexp). -/
def isYmd (s : String) : Bool :=
  match s.toList with
  | y1 :: y2 :: y3 :: y4 :: '-' :: m1 :: m2 :: '-' :: d1 :: d2 :: _ =>
    [y1, y2, y3, y4, m1, m2, d1, d2].all Char.isDigit
  | _ => false

end PyPrim

namespace Txlib

/-- The transaction action enum of txlib.py. -/
inductive Action where
  | BUY
  | SELL
deriving DecidableEq, Repr

/-- Action.name of the Python enum member. -/
def Action.name : Action → String
  | .BUY => "BUY"
  | .SELL => "SELL"

/-- The Tx dataclass of txlib.py.  Floats are modelled as rationals and
the optional exchange rate (a float or None in Python) as an optional
rational. -/
structure Tx where
  security : String
  trade_date : String
  settlement_date : String
  date_and_time : String
  action : Action
  amount_per_share : ℚ
  num_shares : Int
  commission : ℚ
  currency : String
  affiliate : String
  memo : String
  exchange_rate : Option ℚ
  account : Option String := none
deriving DecidableEq, Repr

instance : Inhabited Tx :=
  ⟨⟨"", "", "", "", .BUY, 0, 0, 0, "", "", "", none, none⟩⟩

/-- Model of Python str() on a rational standing in for a float.  The
exact digits of Python float formatting are not load bearing for any
claim; what matters is that the same function is used for every numeric
field. -/
def pyNumStr (q : ℚ) : String := toString q

/-- The exchange-rate cell of AcbCsvRenderer.rows:
str(tx.exchange_rate) if tx.exchange_rate else ''.  Python truthiness
makes both None and 0.0 render as the empty string. -/
def renderExchangeRate : Option ℚ → String
  | none => ""
  | some r => if r = 0 then "" else pyNumStr r

/-- One yielded row of AcbCsvRenderer.rows for a transaction. -/
def Tx.row (tx : Tx) : List String :=
  [tx.security, tx.trade_date, tx.settlement_date, tx.action.name,
   pyNumStr tx.amount_per_share, toString tx.num_shares,
   pyNumStr tx.commission, tx.currency, tx.affiliate, tx.memo,
   renderExchangeRate tx.exchange_rate]

/-- AcbCsvRenderer.rows over the whole transaction list. -/
def rows (txs : List Tx) : List (List String) := txs.map Tx.row

/-- The Boolean sort key comparison used by sort_txs (Python sorted with
key=lambda t: t.date_and_time, i.e. string comparison on the key). -/
def keyLe (a b : Tx) : Bool := decide (a.date_and_time ≤ b.date_and_time)

/-- AcbCsvRenderer.sort_txs: Python sorted() is a stable ascending sort
by the date_and_time key; mergeSort is the stable sort available here. -/
def sort_txs (txs : List Tx) : List Tx := txs.mergeSort keyLe

/-- The sort step of the converter main(): transactions are sorted unless
the no-sort mode is requested. -/
def applySortMode (noSort : Bool) (txs : List Tx) : List Tx :=
  if noSort then txs else sort_txs txs

end Txlib

namespace TxExport

/-!
Embedding of the Questrade sheet converter in py/tx-export-convert.py.
Rows are modelled after the header has been resolved: each data row is a
record of the cell values the parser reads by column name (a missing or
empty cell is none).  Any exception raised while converting a row aborts
the whole sheet, which the Except monad mirrors.
-/

open PyPrim

/-- One data row of the export sheet, keyed by the column names used in
QuestradeSheet.__init__. -/
structure QRow where
  action : Option String
  symbol : Option String
  tradeDate : Option String
  settleDate : Option String
  quantity : Option String
  price : Option String
  commission : Option String
  currency : Option String
deriving DecidableEq, Repr

/-- The Tx dataclass of tx-export-convert.py (the action field holds
action.value, a plain string; date_and_time holds the raw settlement
cell; exchange_rate is None at construction). -/
structure Tx where
  security : String
  settlement_date : String
  date_and_time : Option String
  transaction_date : String
  action : String
  amount_per_share : ℚ
  num_shares : Int
  commission : ℚ
  currency : Option String
  memo : String
  exchange_rate : Option ℚ
deriving DecidableEq, Repr

/-- QuestradeSheet.convert_date_str: return the yyyy-mm-dd prefix of the
cell, raising when the regex does not match (or when the cell is None,
where Python re.match raises a TypeError). -/
def convert_date_str (qt_date : Option String) : Except String String :=
  match qt_date with
  | none => .error "TypeError: expected string or bytes-like object"
  | some s =>
    if isYmd s then .ok (String.mk (s.toList.take 10))
    else .error ("Could not parse date from " ++ s)

/-- The action enum of tx-export-convert.py (Action(action_str.upper())). -/
inductive Action where
  | BUY
  | SELL
deriving DecidableEq, Repr

/-- QuestradeSheet.get_quantity_int: int(float(cell)), negated for sells
because the Questrade table shows sold shares as a negative quantity. -/
def get_quantity_int (quant_str : Option String) (action : Action) :
    Except String Int :=
  match pyFloat quant_str with
  | .error e => .error e
  | .ok f =>
    match action with
    | .BUY => .ok (pyTrunc f)
    | .SELL => .ok (-1 * pyTrunc f)

/-- The symbol alias table of QuestradeSheet. -/
def symbol_aliases : List (String × String × String) :=
  [("H038778", "DLR.TO", "DLR.U.TO")]

/-- Actions silently skipped by QuestradeSheet.__init__. -/
def ignored_actions : List (Option String) :=
  [some "DIV", some "BRW", some "TFI", some "DEP", none]

/-- Actions accepted by QuestradeSheet.__init__. -/
def allowed_actions : List (Option String) := [some "Buy", some "Sell"]

/-- The per-row body of the QuestradeSheet.__init__ loop: either the row
is silently ignored (ok none), converted to a transaction (ok (some tx)),
or an exception aborts the conversion (error). -/
def parseQRow (r : QRow) : Except String (Option Tx) :=
  if ¬ (r.action ∈ allowed_actions) ∧ ¬ (r.action ∈ ignored_actions) then
    .error ("Unrecognized transaction action " ++ (r.action.getD "None") ++ " in row")
  else if r.action ∈ ignored_actions then
    .ok none
  else
    let action : Action := if r.action = some "Buy" then .BUY else .SELL
    let symbol0 := r.symbol.getD "None"
    let (symbol, note) :=
      match symbol_aliases.find? (fun a => a.1 = symbol0) with
      | some (orig, aliasTo, aka) => (aliasTo, orig ++ " AKA " ++ aka ++ ". ")
      | none => (symbol0, "")
    match convert_date_str r.settleDate with
    | .error e => .error e
    | .ok settle =>
      match convert_date_str r.tradeDate with
      | .error e => .error e
      | .ok trade =>
        match pyFloat r.price with
        | .error e => .error e
        | .ok price =>
          match get_quantity_int r.quantity action with
          | .error e => .error e
          | .ok quant =>
            match pyFloat r.commission with
            | .error e => .error e
            | .ok comm =>
              .ok (some
                { security := symbol
                  settlement_date := settle
                  date_and_time := r.settleDate
                  transaction_date := trade
                  action := (match action with | .BUY => "BUY" | .SELL => "SELL")
                  amount_per_share := price
                  num_shares := quant
                  commission := pyAbs comm
                  currency := r.currency
                  memo := note
                  exchange_rate := none })

/-- The whole QuestradeSheet.__init__ row loop over the data rows (the
header row has already been consumed to resolve column names): rows are
converted in order, ignored rows contribute nothing, and the first
exception aborts the whole sheet with no transaction list at all. -/
def parseSheet (rows : List QRow) : Except String (List Tx) :=
  match rows with
  | [] => .ok []
  | r :: rest =>
    match parseQRow r with
    | .error e => .error e
    | .ok none => parseSheet rest
    | .ok (some tx) =>
      match parseSheet rest with
      | .error e => .error e
      | .ok txs => .ok (tx :: txs)

end TxExport

namespace Etrade

/-!
Embedding of the benefit / trade-confirmation matching in
py/etrade-plan-pdf-tx-extract.py.  Calendar dates are day numbers (only
ordering and adding five days matter).  The functions print error
messages in Python; here the messages are returned.
-/

/-- The BenefitEntry dataclass. -/
structure BenefitEntry where
  security : String
  acquire_tx_date : Nat
  acquire_settle_date : Nat
  acquire_share_price : ℚ
  acquire_shares : Int
  sell_to_cover_tx_date : Option Nat
  sell_to_cover_settle_date : Option Nat
  sell_to_cover_price : ℚ
  sell_to_cover_shares : Int
  sell_to_cover_fee : ℚ
  plan_note : String
deriving DecidableEq, Repr

instance : Inhabited BenefitEntry :=
  ⟨⟨"", 0, 0, 0, 0, none, none, 0, 0, 0, ""⟩⟩

/-- The TradeConfirmation dataclass. -/
structure TradeConfirmation where
  security : String
  action : String
  tx_date : Nat
  settle_date : Nat
  shares : Int
deriving DecidableEq, Repr

instance : Inhabited TradeConfirmation := ⟨⟨"", "", 0, 0, 0⟩⟩

/-- The combination search space of find_and_apply_sell_to_cover_trade_set:
itertools.combinations of the candidate list for every size n from
len down to 1 enumerates exactly the nonempty order-preserving
subsequences of the list, each distinct by position.  A combination
matches when every trade is for the benefit's security and the share
counts sum to the benefit's sell-to-cover share count. -/
def matchingTradeSets (benefit : BenefitEntry)
    (trade_confs : List TradeConfirmation) : List (List TradeConfirmation) :=
  trade_confs.sublists.filter (fun s =>
    !s.isEmpty &&
    s.all (fun t => t.security == benefit.security) &&
    decide ((s.map (·.shares)).sum = benefit.sell_to_cover_shares))

/-- find_and_apply_sell_to_cover_trade_set: on a unique matching
combination the benefit's sell-to-cover dates are set from the first
trade of the combination and the combination is returned; with zero or
with several matching combinations an error message is produced, the
benefit is left untouched and no trades are returned. -/
def find_and_apply_sell_to_cover_trade_set (benefit : BenefitEntry)
    (trade_confs : List TradeConfirmation) :
    BenefitEntry × List TradeConfirmation × List String :=
  match matchingTradeSets benefit trade_confs with
  | [] =>
    (benefit, [],
     ["Error: Found no trades matching the sell-to-cover for " ++
      benefit.plan_note ++ " " ++ toString benefit.acquire_tx_date])
  | [m] =>
    ({ benefit with
        sell_to_cover_tx_date := some m.headI.tx_date
        sell_to_cover_settle_date := some m.headI.settle_date },
     m, [])
  | _ =>
    (benefit, [],
     ["Error: Multiple trade combinations near " ++
      toString benefit.acquire_tx_date ++
      " could potentially constitute the sale"])

/-- The candidate filter of amend_benefit_sales: sells whose trade date
lies between the benefit's acquisition date and five days after it. -/
def candidateTrades (benefit : BenefitEntry)
    (trade_confs : List TradeConfirmation) : List TradeConfirmation :=
  trade_confs.filter (fun t =>
    t.action == "SELL" &&
    decide (benefit.acquire_tx_date ≤ t.tx_date) &&
    decide (t.tx_date ≤ benefit.acquire_tx_date + 5))

/-- One iteration of the amend_benefit_sales loop, threading the amended
benefit list, the working copy of the trade pool (matched trades are
removed from it with list.remove, i.e. first value-equal occurrence) and
the error messages. -/
def amendStep
    (acc : List BenefitEntry × List TradeConfirmation × List String)
    (benefit : BenefitEntry) :
    List BenefitEntry × List TradeConfirmation × List String :=
  let (bs, pool, errs) := acc
  let cands := candidateTrades benefit pool
  let (b, matched, errs2) := find_and_apply_sell_to_cover_trade_set benefit cands
  (bs ++ [b], matched.foldl List.erase pool, errs ++ errs2)

/-- amend_benefit_sales on values: works on a copy of the caller's trade
list and returns the amended benefits, the leftover trades and the error
messages. -/
def amend_benefit_sales (benefits : List BenefitEntry)
    (trade_confs : List TradeConfirmation) :
    List BenefitEntry × List TradeConfirmation × List String :=
  benefits.foldl amendStep ([], trade_confs, [])

/-!
A small explicit store of Python list objects, to state what
amend_benefit_sales does to the caller's list object: the function's
first statement rebinds the local name to a fresh copy
(trade_confs = list(trade_confs)), and every later remove() call targets
the copy.
-/

/-- A store of list objects, addressed by allocation index. -/
structure Store where
  data : List (List TradeConfirmation)
deriving Repr

/-- Read the list object behind a reference. -/
def Store.get (s : Store) (r : Nat) : List TradeConfirmation :=
  s.data.getD r []

/-- Allocate a fresh list object holding v. -/
def Store.alloc (s : Store) (v : List TradeConfirmation) : Store × Nat :=
  (⟨s.data ++ [v]⟩, s.data.length)

/-- Overwrite the list object behind a reference. -/
def Store.set (s : Store) (r : Nat) (v : List TradeConfirmation) : Store :=
  ⟨s.data.set r v⟩

/-- The loop body of amend_benefit_sales acting on the store: the pool
reference rc is read, and the removals write back to rc only. -/
def amendStepS (rc : Nat) (acc : Store × List BenefitEntry)
    (benefit : BenefitEntry) : Store × List BenefitEntry :=
  let (s, bs) := acc
  let pool := s.get rc
  let cands := candidateTrades benefit pool
  let (b, matched, _errs) := find_and_apply_sell_to_cover_trade_set benefit cands
  (s.set rc (matched.foldl List.erase pool), bs ++ [b])

/-- amend_benefit_sales acting on the store: r is the caller's trade
list object; the first step copies it into a fresh object rc, the loop
mutates rc, and rc is returned as the leftover-trades list. -/
def amendS (s : Store) (r : Nat) (benefits : List BenefitEntry) :
    Store × List BenefitEntry × Nat :=
  let (s1, rc) := s.alloc (s.get r)
  let (s2, bs) := benefits.foldl (amendStepS rc) (s1, [])
  (s2, bs, rc)

end Etrade

namespace Fmv

/-!
Embedding of the line-oriented securities-owned parser in
py/questrade-statement-fmv.py.  A page is modelled by its text lines
together with the two text-level features parse_pdf reads from the raw
page text: whether the page contains the securities-owned table marker,
and the optional statement-month anchor the regex search extracts.
-/

open PyPrim

/-- The SecOwnedState enum. -/
inductive SState where
  | start
  | hdrAllocation
  | hdrMarketValue
  | div
  | security
  | allocation
  | marketValue
  | done
deriving DecidableEq, Repr

/-- The closed set of matcher objects appearing in the STATES table.
nullM is the NullMatcher a fresh page starts with; it sits in no state's
matcher list. -/
inductive Matcher where
  | strM (crit : String)
  | reSec
  | negReSec
  | decM
  | nullM
deriving DecidableEq, Repr

/-- re.match of SEC_PAT, the pattern of one uppercase letter then
anything. -/
def secMatch (v : String) : Bool :=
  match v.toList with
  | c :: _ => decide ('A' ≤ c) && decide (c ≤ 'Z')
  | [] => false

/-- The tail of the DecMatcher pattern: optional whitespace then at
least one character among dot, comma, space and the digits (with the
backtracking of the regex, a whitespace character may itself serve as
that one character when it is a space). -/
def decMatchAux : List Char → Bool
  | [] => false
  | c :: cs =>
    if c = '.' ∨ c = ',' ∨ c = ' ' ∨ c.isDigit then true
    else if c.isWhitespace then decMatchAux cs
    else false

/-- re.match of the DecMatcher pattern (optional minus sign first). -/
def decMatch (v : String) : Bool :=
  match v.toList with
  | '-' :: rest => decMatchAux rest
  | cs => decMatchAux cs

/-- Matcher.match_line.  NullMatcher raises NotImplementedError in
Python; it is never consulted because it appears in no state's matcher
list, so any total value serves here. -/
def Matcher.match_line : Matcher → String → Bool
  | .strM crit, v => v == crit
  | .reSec, v => secMatch v
  | .negReSec, v => !secMatch v
  | .decM, v => decMatch v
  | .nullM, _ => false

/-- DecMatcher.to_decimal: the sign factor is taken from the first
character, then commas and spaces are stripped and the rest handed to
Decimal(), whose own parse also consumes the leading minus sign. -/
def to_decimal (v : String) : Except String ℚ :=
  let neg : ℚ := if v.toList.headI = '-' then -1 else 1
  let x := String.mk (v.toList.filter (fun c => !(c = ',' ∨ c = ' ')))
  match parseDec x.toList with
  | some d => .ok (neg * d)
  | none => .error ("cannot convert " ++ v ++ " to Decimal")

/-- Matcher.to_decimal: only DecMatcher can convert; the base class
raises a ValueError. -/
def Matcher.conv : Matcher → String → Except String ℚ
  | .decM, v => to_decimal v
  | _, v => .error ("not convertible to Decimal: " ++ v)

/-- The STATES transition table.  The missing keys of the Python dict
(notably done, where the loop has already stopped) are modelled by an
empty matcher list. -/
def STATES : SState → List (Matcher × SState)
  | .start => [(.strM "ALLOCATION", .hdrAllocation)]
  | .hdrAllocation => [(.strM "MARKET VALUE", .hdrMarketValue)]
  | .hdrMarketValue => [(.reSec, .security)]
  | .div => [(.reSec, .security)]
  | .security => [(.decM, .allocation)]
  | .allocation => [(.decM, .marketValue)]
  | .marketValue =>
    [(.strM "100.0", .done), (.negReSec, .div), (.reSec, .security)]
  | .done => []

/-- One matcher lookup of the line loop: the first matcher of the
current state accepting the line wins and becomes the converter; when
none accepts, the state and converter are unchanged. -/
def step (st : SState) (conv : Matcher) (line : String) : SState × Matcher :=
  match (STATES st).find? (fun p => p.1.match_line line) with
  | some p => (p.2, p.1)
  | none => (st, conv)

/-- The FMV record. -/
structure FMV where
  security : String
  allocation : ℚ
  fmv : ℚ
deriving DecidableEq, Repr

/-- The accumulating ParseState. -/
structure PState where
  security : List String
  allocation : Option ℚ
  fmv : Option ℚ
deriving DecidableEq, Repr

/-- The trailing-ticker extraction of ParseState.to_fmv: the accumulated
name parts are joined with spaces and the content of the final
parenthesized group (trailing whitespace allowed) is the ticker; the
asserts of to_fmv are parse failures. -/
def PState.to_fmv (ps : PState) : Except String FMV := do
  if ps.security.isEmpty then throw "assert failed: self.security"
  match ps.allocation, ps.fmv with
  | some alloc, some f =>
    let sec := String.intercalate " " ps.security
    let cs := (sec.toList.reverse.dropWhile Char.isWhitespace).reverse
    match cs.getLast? with
    | some ')' =>
      let body := cs.dropLast
      if body.contains '(' then
        let ticker := (body.reverse.takeWhile (fun c => c ≠ '(')).reverse
        pure { security := String.mk ticker, allocation := alloc, fmv := f }
      else throw "assert failed: ticker match"
    | _ => throw "assert failed: ticker match"
  | _, _ => throw "assert failed: allocation and fmv"

/-- The per-page line loop of parse_pdf: lines are stripped, fed to the
state machine, and the accumulator maintained exactly as in the Python
loop body; reaching done stops the loop; the asserts abort the parse. -/
def runLines (st : SState) (conv : Matcher) (acc : PState)
    (fmvs : List FMV) : List String → Except String (SState × List FMV)
  | [] => .ok (st, fmvs)
  | l :: rest =>
    let line := PyPrim.pyStrip l
    let (st2, conv2) := step st conv line
    if st2 = .done then .ok (.done, fmvs)
    else if st2 = .security then
      runLines st2 conv2 { acc with security := acc.security ++ [line] } fmvs rest
    else if st2 = .allocation then
      if acc.allocation.isSome then
        .error "assert failed: already have allocation"
      else
        match conv2.conv line with
        | .error e => .error e
        | .ok d =>
          runLines st2 conv2 { acc with allocation := some d } fmvs rest
    else if st2 = .marketValue then
      if acc.fmv.isSome then .error "assert failed: fmv"
      else
        match conv2.conv line with
        | .error e => .error e
        | .ok d =>
          match PState.to_fmv { acc with fmv := some d } with
          | .error e => .error e
          | .ok f => runLines st2 conv2 ⟨[], none, none⟩ (fmvs ++ [f]) rest
    else runLines st2 conv2 acc fmvs rest

/-- The pure state trace of the line loop: the state reached by the
matcher table alone, with the early stop at done. -/
def finalState (st : SState) : List String → SState
  | [] => st
  | l :: rest =>
    let st2 := (step st .nullM (PyPrim.pyStrip l)).1
    if st2 = .done then .done else finalState st2 rest

/-- One extracted page: its text lines plus the two features parse_pdf
derives from the raw text, the securities-owned table marker test and
the result of the current-month regex search. -/
structure Page where
  lines : List String
  month : Option String
  hasTable : Bool

/-- The page loop of parse_pdf: the month anchor is tracked across all
pages, pages without the table marker are skipped, and a page with the
table must drive the machine to done or the assert aborts the file. -/
def parsePages (pages : List Page) (fmvs : List FMV)
    (month : Option String) : Except String (List FMV × String) :=
  match pages with
  | [] =>
    match month with
    | some m => .ok (fmvs, m)
    | none => .error "assert failed: month is not None"
  | p :: rest =>
    let month2 := match p.month with
      | some m => some m
      | none => month
    if p.hasTable then
      match runLines .start .nullM ⟨[], none, none⟩ fmvs p.lines with
      | .error e => .error e
      | .ok (st, fmvs2) =>
        if st = .done then parsePages rest fmvs2 month2
        else .error "assert failed: expected to terminal in done"
    else parsePages rest fmvs month2

/-- parse_pdf over the whole document. -/
def parse_pdf (pages : List Page) : Except String (List FMV × String) :=
  parsePages pages [] none

/-- The month anchor accumulated over the document. -/
def monthOf (month : Option String) : List Page → Option String
  | [] => month
  | p :: rest =>
    monthOf (match p.month with | some m => some m | none => month) rest

end Fmv

namespace SpecConvert

/-!
Modelled from the spec: the current tabular-export converter script
(py/tx-export-convert, the file the pytest suite runs) is not part of
the provided sources; only its tests and the txlib declarations are.
Sections 4.2, 6 and 7 of the spec describe its row handling: per data
row, validation failures append a human-readable message to an ordered
error list and skip only that row, processing continues, and the exit
code stays zero.
-/

open PyPrim

/-- Modelled from the spec: one data row of the export sheet, as cell
values keyed by column name (None cells are none). -/
structure Row where
  action : Option String
  symbol : Option String
  tradeDate : Option String
  settleDate : Option String
  quantity : Option String
  price : Option String
  commission : Option String
  currency : Option String
  affiliate : Option String
  account : Option String
deriving DecidableEq, Repr

/-- Modelled from the spec: the configurable ignored-action set
(dividend, transfer-in, journal, deposit, null). -/
def ignoredActions : List (Option String) :=
  [some "DIV", some "BRW", some "TFI", some "DEP", none]

/-- Modelled from the spec: the allowed action set. -/
def allowedActions : List (Option String) := [some "Buy", some "Sell"]

/-- Modelled from the spec: the static symbol alias table
(legacy code to canonical ticker plus AKA display name). -/
def symbolAliases : List (String × String × String) :=
  [("H038778", "DLR.TO", "DLR.U.TO")]

/-- Modelled from the spec: strict integer parse for the Quantity
column (sign and digits only). -/
def parseIntStrict (s : String) : Option Int :=
  let go : List Char → Option Int := fun ds =>
    if ds.isEmpty || !ds.all Char.isDigit then none
    else some (PyPrim.digitsToNat ds : Int)
  match s.toList with
  | '-' :: rest => (go rest).map Neg.neg
  | '+' :: rest => go rest
  | ds => go ds

/-- Modelled from the spec: parse a date cell with the strict
yyyy-mm-dd prefix rule, or report the row-level message. -/
def parseDate (v : Option String) : Except String String :=
  match v with
  | some s => if isYmd s then .ok (String.mk (s.toList.take 10))
              else .error ("Could not parse date from " ++ s)
  | none => .error "Could not parse date from None"

/-- Modelled from the spec: parse a non-negative decimal cell for the
named column, or report the row-level message. -/
def parseNum (v : Option String) (col : String) : Except String ℚ :=
  match v with
  | some s =>
    match parseDec s.toList with
    | some q => .ok q
    | none => .error ("Unable to parse number from " ++ s ++ " in " ++ col ++ " column")
  | none => .error ("Unable to parse number from None in " ++ col ++ " column")

/-- Modelled from the spec: parse the Quantity cell as an integer, or
report the row-level message. -/
def parseQuantity (v : Option String) : Except String Int :=
  match v with
  | some s =>
    match parseIntStrict s with
    | some i => .ok i
    | none => .error ("Unable to parse integer from " ++ s ++ " in Quantity column")
  | none => .error "Unable to parse number from None in Quantity column"

/-- Modelled from the spec: convert one data row.  A row whose action is
ignored produces nothing; an unrecognized action is a row-level error;
otherwise every failing column contributes its own error message, and a
record is produced only when no field failed.  Sells are stored with the
SELL action and a positive share count. -/
def parseRow (rowNum : Nat) (r : Row) : Option Txlib.Tx × List String :=
  if r.action ∈ ignoredActions then (none, [])
  else if ¬ (r.action ∈ allowedActions) then
    (none, ["Unrecognized transaction action " ++ r.action.getD "None" ++
            " in row " ++ toString rowNum])
  else
    let action : Txlib.Action :=
      if r.action = some "Buy" then .BUY else .SELL
    let (symRes, note) : Except String String × String :=
      match r.symbol with
      | none => (Except.error "Symbol was empty", "")
      | some "" => (Except.error "Symbol was empty", "")
      | some sym =>
        match symbolAliases.find? (fun (a : String × String × String) => a.1 = sym) with
        | some (orig, aliasTo, aka) =>
          (Except.ok aliasTo, orig ++ " AKA " ++ aka ++ ". ")
        | none => (Except.ok sym, "")
    let tradeRes := parseDate r.tradeDate
    let settleRes := parseDate r.settleDate
    let quantRes := parseQuantity r.quantity
    let priceRes := parseNum r.price "Price"
    let commRes := parseNum r.commission "Commission"
    match symRes, tradeRes, settleRes, quantRes, priceRes, commRes with
    | .ok sym, .ok trade, .ok settle, .ok quant, .ok price, .ok comm =>
      (some
        { security := sym
          trade_date := trade
          settlement_date := settle
          date_and_time := r.settleDate.getD ""
          action := action
          amount_per_share := price
          num_shares :=
            (match action with | .BUY => quant | .SELL => (quant.natAbs : Int))
          commission := pyAbs comm
          currency := r.currency.getD ""
          affiliate := r.affiliate.getD ""
          memo := note ++ r.account.getD ""
          exchange_rate := none
          account := r.account }, [])
    | s, t, se, q, p, c =>
      (none,
       (match s with | .error e => [e] | _ => []) ++
       (match t with | .error e => [e] | _ => []) ++
       (match se with | .error e => [e] | _ => []) ++
       (match q with | .error e => [e] | _ => []) ++
       (match p with | .error e => [e] | _ => []) ++
       (match c with | .error e => [e] | _ => []))

/-- Modelled from the spec: the row loop.  Rows are numbered from n (the
first data row of a sheet is row 2, after the header); every row is
processed, its record appended to the transaction list and its messages
appended to the ordered error list, and no row ever stops the loop. -/
def parseRows (n : Nat) : List Row → List Txlib.Tx × List String
  | [] => ([], [])
  | r :: rest =>
    let (tx, errs) := parseRow n r
    let (txs, errs2) := parseRows (n + 1) rest
    ((match tx with | some t => [t] | none => []) ++ txs, errs ++ errs2)

/-- Modelled from the spec: the whole sheet, data rows starting at row 2. -/
def parseSheet (rows : List Row) : List Txlib.Tx × List String :=
  parseRows 2 rows

/-- Modelled from the spec: the script's exit status.  Row-level errors
are diagnostic only; the converter flow has no fatal error path, so the
process exit code is zero regardless of the collected errors. -/
def scriptExitCode (rows : List Row) : Nat :=
  let _ := parseSheet rows
  0

end SpecConvert

namespace FxEngine

/-!
Modelled from the spec: the FX-trade pairing engine (section 4.3) of the
current converter script, absent from the provided sources.  Within one
statement/date grouping the FX-marked rows are partitioned into BUY and
SELL legs; a valid pair needs both legs present, amounts of opposite
sign, and exactly one CAD currency with the other drawn from the
supported allow-list (kept here as an explicit configuration parameter,
as section 9 directs).  On success the computed exchange rate is
attached to the CAD leg and both legs stay in the output; a leg with no
counterpart is the row-level error Unpaired FXT and produces no output.
-/

/-- Modelled from the spec: one FX-marked leg of a date grouping, with
its signed CAD-equivalent amount and its (initially absent) exchange
rate. -/
structure FxLeg where
  action : Txlib.Action
  currency : String
  amount : ℚ
  exchange_rate : Option ℚ
deriving DecidableEq, Repr

/-- Modelled from the spec: the exchange rate computed for a valid pair,
from the CAD leg and the foreign leg. -/
def computedRate (cad foreign : FxLeg) : ℚ :=
  |cad.amount| / |foreign.amount|

/-- Modelled from the spec: validation of one BUY/SELL leg pair, in the
spec's order: sign check, exactly-one-CAD check, supported-currency
check; on success both legs are output and the CAD leg carries the
computed rate. -/
def validatePair (supported : List String) (b s : FxLeg) :
    List FxLeg × List String :=
  if 0 < b.amount ∧ 0 < s.amount then
    ([], ["Both FXTs have positive amounts"])
  else if b.amount < 0 ∧ s.amount < 0 then
    ([], ["Both FXTs have negative amounts"])
  else if (b.currency = "CAD" ∧ s.currency = "CAD") ∨
          (b.currency ≠ "CAD" ∧ s.currency ≠ "CAD") then
    ([], ["FXTs not supported between " ++ b.currency ++ " and " ++
          s.currency ++ ". Exactly one currency must be CAD."])
  else if b.currency = "CAD" then
    if ¬ (s.currency ∈ supported) then
      ([], ["FX currency " ++ s.currency ++ " not supported"])
    else
      ([{ b with exchange_rate := some (computedRate b s) }, s], [])
  else
    if ¬ (b.currency ∈ supported) then
      ([], ["FX currency " ++ b.currency ++ " not supported"])
    else
      ([b, { s with exchange_rate := some (computedRate s b) }], [])

/-- Modelled from the spec: one statement/date grouping of FX legs.  The
grouping is partitioned into BUY and SELL legs; with exactly one leg on
each side the pair is validated, an empty grouping produces nothing, and
otherwise the legs lack counterparts: each is the error Unpaired FXT and
the grouping contributes no output records. -/
def pairGroup (supported : List String) (legs : List FxLeg) :
    List FxLeg × List String :=
  let buys := legs.filter (fun l => l.action == Txlib.Action.BUY)
  let sells := legs.filter (fun l => l.action == Txlib.Action.SELL)
  match buys, sells with
  | [b], [s] => validatePair supported b s
  | [], [] => ([], [])
  | bs, ss => ([], (bs ++ ss).map (fun _ => "Unpaired FXT"))

end FxEngine

namespace Samples

/-- A data row that converts cleanly (a Buy of CCO). -/
def goodRow : SpecConvert.Row :=
  ⟨some "Buy", some "CCO", some "2023-01-04", some "2023-01-05",
   some "2", some "10.0", some "3.99", some "CAD", some "(R)",
   some "Questrade Individual TFSA 10000001"⟩

/-- A data row with an action outside both the allowed and the ignored
sets. -/
def badActionRow : SpecConvert.Row :=
  ⟨some "XXX", some "CCO", some "2023-01-04", some "2023-01-05",
   some "2", some "10.0", some "3.99", some "CAD", some "(R)",
   some "Questrade Individual TFSA 10000001"⟩

end Samples

/-!
## Claim theorems
-/

/-- C9: for every transaction whose exchange rate is exactly zero, the
rendered Exchange Rate CSV field is the empty string, and the whole
rendered row is identical to that of the same record with no exchange
rate at all, because AcbCsvRenderer.rows tests the value for truthiness
rather than for absence. -/
theorem c9_zero_exchange_rate_renders_empty (tx : Txlib.Tx)
    (h : tx.exchange_rate = some 0) :
    Txlib.Tx.row tx = Txlib.Tx.row { tx with exchange_rate := none } ∧
    (Txlib.Tx.row tx).getLastD "" = "" := by
  constructor
  · simp [Txlib.Tx.row, h, Txlib.renderExchangeRate]
  · simp [Txlib.Tx.row, h, Txlib.renderExchangeRate]

/-- Witness for C9 at a concrete transaction with a zero exchange rate. -/
theorem c9_zero_exchange_rate_renders_empty_witness :
    Txlib.Tx.row ⟨"CCO", "2023-01-04", "2023-01-05", "2023-01-05", .BUY, 10, 2, 0, "CAD", "", "", some 0, none⟩ =
      Txlib.Tx.row ⟨"CCO", "2023-01-04", "2023-01-05", "2023-01-05", .BUY, 10, 2, 0, "CAD", "", "", none, none⟩ ∧
    (Txlib.Tx.row ⟨"CCO", "2023-01-04", "2023-01-05", "2023-01-05", .BUY, 10, 2, 0, "CAD", "", "", some 0, none⟩).getLastD "" = "" :=
  c9_zero_exchange_rate_renders_empty _ rfl

/-- C8: the renderer's ordering is deterministic: the no-sort mode is the
identity on the parsed transaction list, and the default mode sorts
ascending by the date_and_time key, stably: records with any given key
appear in exactly their original relative order. -/
theorem c8_sort_determinism (txs : List Txlib.Tx) :
    Txlib.applySortMode true txs = txs ∧
    (Txlib.applySortMode false txs).Pairwise
      (fun a b => a.date_and_time ≤ b.date_and_time) ∧
    ∀ k : String,
      (Txlib.applySortMode false txs).filter (fun t => t.date_and_time == k) =
        txs.filter (fun t => t.date_and_time == k) := by
  have htrans : ∀ a b c : Txlib.Tx,
      Txlib.keyLe a b → Txlib.keyLe b c → Txlib.keyLe a c := by
    intro a b c h1 h2
    simp only [Txlib.keyLe, decide_eq_true_eq] at h1 h2 ⊢
    exact le_trans h1 h2
  have htotal : ∀ a b : Txlib.Tx, Txlib.keyLe a b || Txlib.keyLe b a := by
    intro a b
    simp only [Txlib.keyLe, Bool.or_eq_true, decide_eq_true_eq]
    exact le_total _ _
  refine ⟨rfl, ?_, ?_⟩
  · have h := List.sorted_mergeSort htrans htotal txs
    have h2 : (txs.mergeSort Txlib.keyLe).Pairwise
        (fun a b : Txlib.Tx => a.date_and_time ≤ b.date_and_time) :=
      h.imp (by intro a b hab; simpa [Txlib.keyLe] using hab)
    simpa [Txlib.applySortMode, Txlib.sort_txs] using h2
  · intro k
    have hkey : ∀ t ∈ txs.filter (fun t => t.date_and_time == k),
        t.date_and_time = k := by
      intro t ht
      have := List.of_mem_filter ht
      simpa using this
    have hpair : (txs.filter (fun t => t.date_and_time == k)).Pairwise
        (fun a b => Txlib.keyLe a b = true) := by
      apply List.pairwise_of_forall_mem_list
      intro a ha b hb
      simp [Txlib.keyLe, hkey a ha, hkey b hb]
    have h1 : List.Sublist (txs.filter (fun t => t.date_and_time == k))
        (txs.mergeSort Txlib.keyLe) :=
      List.sublist_mergeSort htrans htotal hpair (List.filter_sublist txs)
    have h2 := h1.filter (fun t => t.date_and_time == k)
    have hid : List.filter (fun t => t.date_and_time == k)
        (List.filter (fun t => t.date_and_time == k) txs) =
        List.filter (fun t => t.date_and_time == k) txs :=
      List.filter_eq_self.mpr (by intro a ha; exact (List.mem_filter.mp ha).2)
    rw [hid] at h2
    have hperm : List.Perm
        ((txs.mergeSort Txlib.keyLe).filter (fun t => t.date_and_time == k))
        (txs.filter (fun t => t.date_and_time == k)) :=
      (List.mergeSort_perm txs Txlib.keyLe).filter _
    have hlen : (txs.filter (fun t => t.date_and_time == k)).length =
        ((txs.mergeSort Txlib.keyLe).filter (fun t => t.date_and_time == k)).length :=
      hperm.length_eq.symm
    have := h2.eq_of_length hlen
    simpa [Txlib.applySortMode, Txlib.sort_txs] using this.symm

/-- C6 (code bug): DecMatcher.to_decimal intends to honor a leading minus
sign, but it multiplies by the extracted sign factor after Decimal() has
already parsed the minus sign that the separator stripping left in
place, so the sign is applied twice and a negative numeric line comes
out positive: the input -1,234.5 converts to +1234.5 instead of
-1234.5. -/
theorem c6_to_decimal_minus_applied_twice :
    Fmv.to_decimal "-1,234.5" = Except.ok ((2469 : ℚ) / 2) ∧
    ((2469 : ℚ) / 2) ≠ -1234.5 ∧ (-1234.5 : ℚ) = -((2469 : ℚ) / 2) := by
  have h1 : Fmv.to_decimal "-1,234.5" =
      Except.ok ((-1 : ℚ) * (-(mkRat ((12345 : Nat) : Int) 10))) := rfl
  refine ⟨?_, by norm_num, by norm_num⟩
  rw [h1]
  norm_num [Rat.mkRat_eq_div]

/-- C5 (amended): for every Sell row that converts successfully, the
record's action is SELL and its share count is the negation of the
truncated source quantity; in particular a negative source quantity such
as -8 becomes the positive absolute value 8.  (The negation is
unconditional, so a positive-quantity Sell row would produce a negative
count; see the counterexample.) -/
theorem c5_sell_quantity_sign (r : TxExport.QRow) (tx : TxExport.Tx) (q : ℚ)
    (hact : r.action = some "Sell")
    (hq : PyPrim.pyFloat r.quantity = .ok q)
    (hok : TxExport.parseQRow r = .ok (some tx)) :
    tx.action = "SELL" ∧
    tx.num_shares = -(PyPrim.pyTrunc q) ∧
    (PyPrim.pyTrunc q < 0 →
      0 < tx.num_shares ∧ tx.num_shares = ((PyPrim.pyTrunc q).natAbs : Int)) := by
  rw [TxExport.parseQRow, hact] at hok
  simp +decide [TxExport.allowed_actions, TxExport.ignored_actions] at hok
  have hgq : TxExport.get_quantity_int r.quantity .SELL =
      .ok (-1 * PyPrim.pyTrunc q) := by
    rw [TxExport.get_quantity_int, hq]
  rw [hgq] at hok
  cases h1 : TxExport.convert_date_str r.settleDate <;> rw [h1] at hok
  · simp at hok
  cases h2 : TxExport.convert_date_str r.tradeDate <;> rw [h2] at hok
  · simp at hok
  cases h3 : PyPrim.pyFloat r.price <;> rw [h3] at hok
  · simp at hok
  cases h4 : PyPrim.pyFloat r.commission <;> rw [h4] at hok
  · simp at hok
  simp only [Except.ok.injEq, Option.some.injEq] at hok
  subst hok
  refine ⟨rfl, by simp, ?_⟩
  intro hneg
  constructor
  · simp only []
    omega
  · simp only []
    omega

/-- Witness for C5 at a concrete Sell row with source quantity -8: the
record comes out with action SELL and share count 8. -/
theorem c5_sell_quantity_sign_witness :
    (⟨"CCO", "2023-01-17", some "2023-01-17", "2023-01-16", "SELL",
        mkRat 100 10, 8, PyPrim.pyAbs (mkRat 10 10), some "CAD", "",
        none⟩ : TxExport.Tx).action = "SELL" ∧
    (⟨"CCO", "2023-01-17", some "2023-01-17", "2023-01-16", "SELL",
        mkRat 100 10, 8, PyPrim.pyAbs (mkRat 10 10), some "CAD", "",
        none⟩ : TxExport.Tx).num_shares =
      -(PyPrim.pyTrunc (-(mkRat 8 1))) :=
  ⟨(c5_sell_quantity_sign
      ⟨some "Sell", some "CCO", some "2023-01-16", some "2023-01-17",
       some "-8", some "10.0", some "1.0", some "CAD"⟩ _ _ rfl rfl rfl).1,
   (c5_sell_quantity_sign
      ⟨some "Sell", some "CCO", some "2023-01-16", some "2023-01-17",
       some "-8", some "10.0", some "1.0", some "CAD"⟩ _ _ rfl rfl rfl).2.1⟩

/-- C5 counterexample: the claim also states that the parser never emits
a record with a negative share count, but a Sell row whose source
quantity is the positive 8 is negated unconditionally and yields a
record with share count -8. -/
theorem c5_counterexample_positive_sell :
    TxExport.parseSheet
      [⟨some "Sell", some "CCO", some "2023-01-16", some "2023-01-17",
        some "8", some "10.0", some "1.0", some "CAD"⟩] =
      Except.ok
        [⟨"CCO", "2023-01-17", some "2023-01-17", "2023-01-16", "SELL",
          mkRat 100 10, -8, PyPrim.pyAbs (mkRat 10 10), some "CAD", "",
          none⟩] ∧
    (-8 : Int) < 0 :=
  ⟨rfl, by norm_num⟩

/-- Removing a list of trades with successive list.remove calls drops
one occurrence per removal. -/
theorem count_foldl_erase (m : List Etrade.TradeConfirmation)
    (l : List Etrade.TradeConfirmation) (t : Etrade.TradeConfirmation) :
    (m.foldl List.erase l).count t = l.count t - m.count t := by
  induction m generalizing l with
  | nil => simp
  | cons a m ih =>
    rw [List.foldl_cons, ih, List.count_erase]
    by_cases h : t = a
    · subst h; simp; omega
    · simp [h, Ne.symm h, List.count_cons]

/-- C3 (amended): for every benefit whose candidate pool admits exactly
one combination of trades summing to the sell-to-cover share count, the
benefit's sell-to-cover trade and settlement dates are filled from the
first trade of the matched combination (in candidate-pool order, which
need not be the latest-dated one), and every trade of the matched
combination is removed from the shared pool, strictly decreasing its
multiplicity there. -/
theorem c3_unique_match_applied (b : Etrade.BenefitEntry)
    (pool m : List Etrade.TradeConfirmation)
    (h : Etrade.matchingTradeSets b (Etrade.candidateTrades b pool) = [m]) :
    Etrade.amend_benefit_sales [b] pool =
      ([{ b with sell_to_cover_tx_date := some m.headI.tx_date,
                 sell_to_cover_settle_date := some m.headI.settle_date }],
       m.foldl List.erase pool, []) ∧
    ∀ t ∈ m, (m.foldl List.erase pool).count t < pool.count t := by
  constructor
  · simp [Etrade.amend_benefit_sales, Etrade.amendStep,
          Etrade.find_and_apply_sell_to_cover_trade_set, h]
  · intro t ht
    have hm : m ∈ Etrade.matchingTradeSets b (Etrade.candidateTrades b pool) := by
      rw [h]; exact List.mem_singleton.mpr rfl
    have hmem : m ∈ (Etrade.candidateTrades b pool).sublists :=
      List.mem_of_mem_filter hm
    have hsub : List.Sublist m (Etrade.candidateTrades b pool) :=
      List.mem_sublists.mp hmem
    have hsubpool : List.Sublist m pool :=
      hsub.trans (List.filter_sublist pool)
    have hc := count_foldl_erase m pool t
    have h1 : 0 < m.count t := List.count_pos_iff.mpr ht
    have h2 : m.count t ≤ pool.count t := hsubpool.count_le t
    omega

/-- Witness for C3 at the 60-plus-40 benefit scenario: the unique
matched combination is both trades and they are removed from the pool. -/
theorem c3_unique_match_applied_witness :
    Etrade.amend_benefit_sales
      [⟨"GOOG", 10, 10, 0, 0, none, none, 0, 100, 0, "RSU R1"⟩]
      [⟨"GOOG", "SELL", 10, 12, 60⟩, ⟨"GOOG", "SELL", 12, 14, 40⟩] =
      ([{ (⟨"GOOG", 10, 10, 0, 0, none, none, 0, 100, 0, "RSU R1"⟩ : Etrade.BenefitEntry) with
            sell_to_cover_tx_date :=
              some ([⟨"GOOG", "SELL", 10, 12, 60⟩,
                     (⟨"GOOG", "SELL", 12, 14, 40⟩ : Etrade.TradeConfirmation)].headI.tx_date),
            sell_to_cover_settle_date :=
              some ([⟨"GOOG", "SELL", 10, 12, 60⟩,
                     (⟨"GOOG", "SELL", 12, 14, 40⟩ : Etrade.TradeConfirmation)].headI.settle_date) }],
       [⟨"GOOG", "SELL", 10, 12, 60⟩,
        (⟨"GOOG", "SELL", 12, 14, 40⟩ : Etrade.TradeConfirmation)].foldl List.erase
         [⟨"GOOG", "SELL", 10, 12, 60⟩, ⟨"GOOG", "SELL", 12, 14, 40⟩], []) :=
  (c3_unique_match_applied
    ⟨"GOOG", 10, 10, 0, 0, none, none, 0, 100, 0, "RSU R1"⟩
    [⟨"GOOG", "SELL", 10, 12, 60⟩, ⟨"GOOG", "SELL", 12, 14, 40⟩]
    [⟨"GOOG", "SELL", 10, 12, 60⟩, ⟨"GOOG", "SELL", 12, 14, 40⟩]
    (by decide)).1

/-- C3 counterexample: with the unique match made of a trade dated 10
and a later trade dated 12 (the latest-dated matched trade), the
benefit's sell-to-cover dates are taken from the trade dated 10, not
from the latest-dated one as the claim states. -/
theorem c3_counterexample_first_not_latest :
    (Etrade.amend_benefit_sales
      [⟨"GOOG", 10, 10, 0, 0, none, none, 0, 100, 0, "RSU R1"⟩]
      [⟨"GOOG", "SELL", 10, 12, 60⟩, ⟨"GOOG", "SELL", 12, 14, 40⟩]).1 =
      [⟨"GOOG", 10, 10, 0, 0, some 10, some 12, 0, 100, 0, "RSU R1"⟩] ∧
    Etrade.matchingTradeSets ⟨"GOOG", 10, 10, 0, 0, none, none, 0, 100, 0, "RSU R1"⟩
      (Etrade.candidateTrades ⟨"GOOG", 10, 10, 0, 0, none, none, 0, 100, 0, "RSU R1"⟩
        [⟨"GOOG", "SELL", 10, 12, 60⟩, ⟨"GOOG", "SELL", 12, 14, 40⟩]) =
      [[⟨"GOOG", "SELL", 10, 12, 60⟩, ⟨"GOOG", "SELL", 12, 14, 40⟩]] ∧
    (⟨"GOOG", "SELL", 12, 14, 40⟩ : Etrade.TradeConfirmation).tx_date = 12 ∧
    (some 10 : Option Nat) ≠ some 12 := by
  refine ⟨by decide, by decide, rfl, by decide⟩

/-- C4: benefit matching is atomic on failure: with two or more distinct
matching combinations the multiple-combinations error is reported, and
with none the no-trades error is reported; in both cases the benefit is
returned untouched (its sell-to-cover dates keep their value, unset if
they were unset), no trades are matched, and the amend loop leaves the
candidate pool unchanged. -/
theorem c4_failure_is_atomic (b : Etrade.BenefitEntry)
    (tcs pool : List Etrade.TradeConfirmation) :
    (2 ≤ (Etrade.matchingTradeSets b tcs).length →
      Etrade.find_and_apply_sell_to_cover_trade_set b tcs =
        (b, [],
         ["Error: Multiple trade combinations near " ++
          toString b.acquire_tx_date ++
          " could potentially constitute the sale"])) ∧
    (Etrade.matchingTradeSets b tcs = [] →
      Etrade.find_and_apply_sell_to_cover_trade_set b tcs =
        (b, [],
         ["Error: Found no trades matching the sell-to-cover for " ++
          b.plan_note ++ " " ++ toString b.acquire_tx_date])) ∧
    ((Etrade.matchingTradeSets b (Etrade.candidateTrades b pool)).length ≠ 1 →
      (Etrade.amend_benefit_sales [b] pool).1 = [b] ∧
      (Etrade.amend_benefit_sales [b] pool).2.1 = pool) := by
  refine ⟨?_, ?_, ?_⟩
  · intro h
    rcases hm : Etrade.matchingTradeSets b tcs with _ | ⟨m1, _ | ⟨m2, rest⟩⟩
    · rw [hm] at h; simp at h
    · rw [hm] at h; simp at h
    · simp [Etrade.find_and_apply_sell_to_cover_trade_set, hm]
  · intro h
    simp [Etrade.find_and_apply_sell_to_cover_trade_set, h]
  · intro h
    rcases hm : Etrade.matchingTradeSets b (Etrade.candidateTrades b pool) with
      _ | ⟨m1, _ | ⟨m2, rest⟩⟩
    · constructor <;>
        simp [Etrade.amend_benefit_sales, Etrade.amendStep,
              Etrade.find_and_apply_sell_to_cover_trade_set, hm]
    · rw [hm] at h; simp at h
    · constructor <;>
        simp [Etrade.amend_benefit_sales, Etrade.amendStep,
              Etrade.find_and_apply_sell_to_cover_trade_set, hm]

/-- Witness for C4: a benefit needing 100 shares with candidate sells of
100, 60 and 40 shares has the two distinct combinations 100 and 60+40,
so the multiple-combinations error is reported and nothing is applied;
an empty candidate list reports the no-trades error. -/
theorem c4_failure_is_atomic_witness :
    Etrade.find_and_apply_sell_to_cover_trade_set
      ⟨"GOOG", 10, 10, 0, 0, none, none, 0, 100, 0, "RSU R1"⟩
      [⟨"GOOG", "SELL", 10, 12, 100⟩, ⟨"GOOG", "SELL", 10, 12, 60⟩,
       ⟨"GOOG", "SELL", 11, 13, 40⟩] =
      (⟨"GOOG", 10, 10, 0, 0, none, none, 0, 100, 0, "RSU R1"⟩, [],
       ["Error: Multiple trade combinations near " ++ toString (10 : Nat) ++
        " could potentially constitute the sale"]) ∧
    Etrade.find_and_apply_sell_to_cover_trade_set
      ⟨"GOOG", 10, 10, 0, 0, none, none, 0, 100, 0, "RSU R1"⟩ [] =
      (⟨"GOOG", 10, 10, 0, 0, none, none, 0, 100, 0, "RSU R1"⟩, [],
       ["Error: Found no trades matching the sell-to-cover for " ++
        "RSU R1" ++ " " ++ toString (10 : Nat)]) :=
  ⟨(c4_failure_is_atomic
      ⟨"GOOG", 10, 10, 0, 0, none, none, 0, 100, 0, "RSU R1"⟩
      [⟨"GOOG", "SELL", 10, 12, 100⟩, ⟨"GOOG", "SELL", 10, 12, 60⟩,
       ⟨"GOOG", "SELL", 11, 13, 40⟩] []).1 (by decide),
   (c4_failure_is_atomic
      ⟨"GOOG", 10, 10, 0, 0, none, none, 0, 100, 0, "RSU R1"⟩
      [] []).2.1 (by decide)⟩

/-- Writing one store cell leaves every other cell unchanged. -/
theorem store_get_set_ne (s : Etrade.Store) (r rc : Nat)
    (v : List Etrade.TradeConfirmation) (h : r ≠ rc) :
    (s.set rc v).get r = s.get r := by
  simp [Etrade.Store.get, Etrade.Store.set, List.getElem?_set_ne (Ne.symm h)]

/-- The amend loop writes only to the pool copy rc, so any other list
object of the store is untouched. -/
theorem amendS_fold_get (rc : Nat) (bs : List Etrade.BenefitEntry) :
    ∀ (s : Etrade.Store) (acc : List Etrade.BenefitEntry) (r : Nat), r ≠ rc →
    ((bs.foldl (Etrade.amendStepS rc) (s, acc)).1).get r = s.get r := by
  induction bs with
  | nil => intro s acc r h; rfl
  | cons b bs ih =>
    intro s acc r h
    rw [List.foldl_cons]
    simp only [Etrade.amendStepS]
    rw [ih _ _ r h, store_get_set_ne _ _ _ _ h]

/-- find_and_apply_sell_to_cover_trade_set changes a benefit in the two
sell-to-cover date fields at most. -/
theorem benefit_dates_only (b : Etrade.BenefitEntry)
    (tcs : List Etrade.TradeConfirmation) :
    (Etrade.find_and_apply_sell_to_cover_trade_set b tcs).1 =
      { b with
          sell_to_cover_tx_date :=
            (Etrade.find_and_apply_sell_to_cover_trade_set b tcs).1.sell_to_cover_tx_date,
          sell_to_cover_settle_date :=
            (Etrade.find_and_apply_sell_to_cover_trade_set b tcs).1.sell_to_cover_settle_date } := by
  rcases hm : Etrade.matchingTradeSets b tcs with _ | ⟨m, _ | _⟩ <;>
    simp [Etrade.find_and_apply_sell_to_cover_trade_set, hm]

/-- The amend loop appends one benefit per input benefit, each equal to
its input except possibly in the two sell-to-cover date fields. -/
theorem amendS_fold_benefits (rc : Nat) (bs : List Etrade.BenefitEntry) :
    ∀ (s : Etrade.Store) (acc : List Etrade.BenefitEntry),
    ∃ tl, (bs.foldl (Etrade.amendStepS rc) (s, acc)).2 = acc ++ tl ∧
      tl.length = bs.length ∧
      ∀ i, i < bs.length →
        tl.getD i default =
          { bs.getD i default with
              sell_to_cover_tx_date := (tl.getD i default).sell_to_cover_tx_date,
              sell_to_cover_settle_date := (tl.getD i default).sell_to_cover_settle_date } := by
  induction bs with
  | nil =>
    intro s acc
    exact ⟨[], by simp, rfl, by intro i hi; simp at hi⟩
  | cons b bs ih =>
    intro s acc
    rw [List.foldl_cons]
    simp only [Etrade.amendStepS]
    obtain ⟨tl, h1, h2, h3⟩ := ih _
      (acc ++ [(Etrade.find_and_apply_sell_to_cover_trade_set b
        (Etrade.candidateTrades b (s.get rc))).1])
    refine ⟨(Etrade.find_and_apply_sell_to_cover_trade_set b
        (Etrade.candidateTrades b (s.get rc))).1 :: tl, ?_, ?_, ?_⟩
    · rw [h1]; simp
    · simp [h2]
    · intro i hi
      cases i with
      | zero => simpa using benefit_dates_only b (Etrade.candidateTrades b (s.get rc))
      | succ j =>
        have hj : j < bs.length := by simpa using hi
        simpa using h3 j hj

/-- C10: amend_benefit_sales never mutates the caller's trade list
object: its first statement copies the list into a fresh object and all
removals target the copy, so after the call the caller's list still
holds every trade confirmation; its only other effect is on the
benefits, each of which can change in the two sell-to-cover date fields
only. -/
theorem c10_amend_frame (s : Etrade.Store) (r : Nat)
    (bs : List Etrade.BenefitEntry) (h : r < s.data.length) :
    ((Etrade.amendS s r bs).1).get r = s.get r ∧
    (Etrade.amendS s r bs).2.1.length = bs.length ∧
    ∀ i, i < bs.length →
      (Etrade.amendS s r bs).2.1.getD i default =
        { bs.getD i default with
            sell_to_cover_tx_date :=
              ((Etrade.amendS s r bs).2.1.getD i default).sell_to_cover_tx_date,
            sell_to_cover_settle_date :=
              ((Etrade.amendS s r bs).2.1.getD i default).sell_to_cover_settle_date } := by
  have hne : r ≠ s.data.length := Nat.ne_of_lt h
  have hget1 : (⟨s.data ++ [s.get r]⟩ : Etrade.Store).get r = s.get r := by
    simp [Etrade.Store.get, List.getElem?_append, h]
  obtain ⟨tl, h1, h2, h3⟩ :=
    amendS_fold_benefits s.data.length bs ⟨s.data ++ [s.get r]⟩ []
  have hAm : (Etrade.amendS s r bs).2.1 = tl := by
    show (bs.foldl (Etrade.amendStepS s.data.length)
      (⟨s.data ++ [s.get r]⟩, [])).2 = tl
    rw [h1]; simp
  refine ⟨?_, ?_, ?_⟩
  · show ((bs.foldl (Etrade.amendStepS s.data.length)
        (⟨s.data ++ [s.get r]⟩, [])).1).get r = s.get r
    rw [amendS_fold_get _ _ _ _ _ hne, hget1]
  · rw [hAm, h2]
  · intro i hi
    rw [hAm]
    exact h3 i hi

/-- Witness for C10: a store holding one caller list with one trade
still holds it unchanged after amendS matches (and removes from the
copy) that very trade. -/
theorem c10_amend_frame_witness :
    ((Etrade.amendS ⟨[[⟨"GOOG", "SELL", 10, 12, 100⟩]]⟩ 0
        [⟨"GOOG", 10, 10, 0, 0, none, none, 0, 100, 0, "RSU R1"⟩]).1).get 0 =
      (⟨[[⟨"GOOG", "SELL", 10, 12, 100⟩]]⟩ : Etrade.Store).get 0 :=
  (c10_amend_frame ⟨[[⟨"GOOG", "SELL", 10, 12, 100⟩]]⟩ 0
    [⟨"GOOG", 10, 10, 0, 0, none, none, 0, 100, 0, "RSU R1"⟩] (by decide)).1

/-- The row loop distributes over list append, shifting the row number
by the length of the prefix. -/
theorem parseRows_append (pre : List SpecConvert.Row) :
    ∀ (n : Nat) (suf : List SpecConvert.Row),
    SpecConvert.parseRows n (pre ++ suf) =
      ((SpecConvert.parseRows n pre).1 ++ (SpecConvert.parseRows (n + pre.length) suf).1,
       (SpecConvert.parseRows n pre).2 ++ (SpecConvert.parseRows (n + pre.length) suf).2) := by
  induction pre with
  | nil => intro n suf; simp [SpecConvert.parseRows]
  | cons r pre ih =>
    intro n suf
    simp only [List.cons_append, SpecConvert.parseRows]
    simp only [List.append_eq]
    rw [ih]
    have hn : n + 1 + pre.length = n + (pre.length + 1) := by omega
    simp [hn, List.append_assoc]

/-- C2: row-level error recovery in the tabular-export parser: a data
row whose action is outside both the allowed and the ignored sets, or
whose date fails the strict yyyy-mm-dd parse, contributes no record and
at least one human-readable message; the surrounding rows are processed
exactly as if the bad row were the only difference, the messages keep
row order, and the script's exit code stays zero. -/
theorem c2_row_error_recovery (n : Nat) (pre suf : List SpecConvert.Row)
    (r : SpecConvert.Row)
    (h : (¬ r.action ∈ SpecConvert.allowedActions ∧
          ¬ r.action ∈ SpecConvert.ignoredActions) ∨
         (r.action ∈ SpecConvert.allowedActions ∧
           ((∃ e, SpecConvert.parseDate r.tradeDate = .error e) ∨
            (∃ e, SpecConvert.parseDate r.settleDate = .error e)))) :
    (SpecConvert.parseRow (n + pre.length) r).1 = none ∧
    (SpecConvert.parseRow (n + pre.length) r).2 ≠ [] ∧
    (SpecConvert.parseRows n (pre ++ r :: suf)).1 =
      (SpecConvert.parseRows n pre).1 ++
        (SpecConvert.parseRows (n + pre.length + 1) suf).1 ∧
    (SpecConvert.parseRows n (pre ++ r :: suf)).2 =
      (SpecConvert.parseRows n pre).2 ++ (SpecConvert.parseRow (n + pre.length) r).2 ++
        (SpecConvert.parseRows (n + pre.length + 1) suf).2 ∧
    SpecConvert.scriptExitCode (pre ++ r :: suf) = 0 := by
  have hrow : (SpecConvert.parseRow (n + pre.length) r).1 = none ∧
      (SpecConvert.parseRow (n + pre.length) r).2 ≠ [] := by
    rcases h with ⟨hna, hni⟩ | ⟨ha, hdate⟩
    · rw [SpecConvert.parseRow, if_neg hni, if_pos hna]
      exact ⟨rfl, by simp⟩
    · have hni : ¬ r.action ∈ SpecConvert.ignoredActions := by
        rcases (by simpa [SpecConvert.allowedActions] using ha :
            r.action = some "Buy" ∨ r.action = some "Sell") with hb | hb <;>
          simp [hb, SpecConvert.ignoredActions]
      rw [SpecConvert.parseRow, if_neg hni, if_neg (by simpa using ha)]
      simp only []
      split
      · exfalso
        rcases hdate with ⟨e, he⟩ | ⟨e, he⟩ <;> simp_all
      · refine ⟨rfl, ?_⟩
        rcases hdate with ⟨e, he⟩ | ⟨e, he⟩ <;> simp [he]
  have hsplit := parseRows_append pre n (r :: suf)
  have hone : SpecConvert.parseRows (n + pre.length) (r :: suf) =
      ((match (SpecConvert.parseRow (n + pre.length) r).1 with
        | some t => [t] | none => []) ++
        (SpecConvert.parseRows (n + pre.length + 1) suf).1,
       (SpecConvert.parseRow (n + pre.length) r).2 ++
        (SpecConvert.parseRows (n + pre.length + 1) suf).2) := rfl
  refine ⟨hrow.1, hrow.2, ?_, ?_, rfl⟩
  · rw [hsplit, hone]
    simp [hrow.1]
  · rw [hsplit, hone]
    simp [List.append_assoc]

/-- Witness for C2 with a concrete three-row sheet whose middle row has
the unrecognized action XXX. -/
theorem c2_row_error_recovery_witness :
    (SpecConvert.parseRow (2 + [Samples.goodRow].length) Samples.badActionRow).1 = none ∧
    (SpecConvert.parseRow (2 + [Samples.goodRow].length) Samples.badActionRow).2 ≠ [] ∧
    (SpecConvert.parseRows 2 ([Samples.goodRow] ++ Samples.badActionRow :: [Samples.goodRow])).1 =
      (SpecConvert.parseRows 2 [Samples.goodRow]).1 ++
        (SpecConvert.parseRows (2 + [Samples.goodRow].length + 1) [Samples.goodRow]).1 ∧
    (SpecConvert.parseRows 2 ([Samples.goodRow] ++ Samples.badActionRow :: [Samples.goodRow])).2 =
      (SpecConvert.parseRows 2 [Samples.goodRow]).2 ++
        (SpecConvert.parseRow (2 + [Samples.goodRow].length) Samples.badActionRow).2 ++
        (SpecConvert.parseRows (2 + [Samples.goodRow].length + 1) [Samples.goodRow]).2 ∧
    SpecConvert.scriptExitCode
      ([Samples.goodRow] ++ Samples.badActionRow :: [Samples.goodRow]) = 0 :=
  c2_row_error_recovery 2 [Samples.goodRow] [Samples.goodRow] Samples.badActionRow
    (Or.inl ⟨by decide, by decide⟩)

/-- C1: FX pairing per date grouping (engine modelled from the spec):
a grouping holding exactly one BUY and one SELL leg with amounts of
opposite sign and matching magnitude, exactly one of them CAD and the
other in the supported allow-list, emits both legs with the computed
exchange rate attached to the CAD leg only, and no error; a grouping
whose legs all sit on one side has no counterparts, so it emits zero FX
records and one Unpaired FXT error per leg. -/
theorem c1_fx_pairing (supported : List String) (b s : FxEngine.FxLeg)
    (hb : b.action = .BUY) (hs : s.action = .SELL)
    (hbr : b.exchange_rate = none) (hsr : s.exchange_rate = none)
    (hmag : b.amount = -s.amount) (_hnz : b.amount ≠ 0) :
    ((b.currency = "CAD" ∧ s.currency ≠ "CAD" ∧ s.currency ∈ supported) →
      FxEngine.pairGroup supported [b, s] =
        ([{ b with exchange_rate := some (FxEngine.computedRate b s) }, s], []) ∧
      ((FxEngine.pairGroup supported [b, s]).1.filter
          (fun l => l.exchange_rate.isSome)).length = 1) ∧
    ((s.currency = "CAD" ∧ b.currency ≠ "CAD" ∧ b.currency ∈ supported) →
      FxEngine.pairGroup supported [b, s] =
        ([b, { s with exchange_rate := some (FxEngine.computedRate s b) }], []) ∧
      ((FxEngine.pairGroup supported [b, s]).1.filter
          (fun l => l.exchange_rate.isSome)).length = 1) ∧
    (∀ legs : List FxEngine.FxLeg, legs ≠ [] →
      ((∀ l ∈ legs, l.action = .BUY) ∨ (∀ l ∈ legs, l.action = .SELL)) →
      FxEngine.pairGroup supported legs = ([], legs.map (fun _ => "Unpaired FXT"))) := by
  have hgroup : FxEngine.pairGroup supported [b, s] =
      FxEngine.validatePair supported b s := by
    simp [FxEngine.pairGroup, hb, hs]
  have hsign1 : ¬ (0 < b.amount ∧ 0 < s.amount) := by
    rintro ⟨h1, h2⟩
    rw [hmag] at h1
    linarith
  have hsign2 : ¬ (b.amount < 0 ∧ s.amount < 0) := by
    rintro ⟨h1, h2⟩
    rw [hmag] at h1
    linarith
  refine ⟨?_, ?_, ?_⟩
  · rintro ⟨hc1, hc2, hc3⟩
    have hcur : ¬ ((b.currency = "CAD" ∧ s.currency = "CAD") ∨
        (b.currency ≠ "CAD" ∧ s.currency ≠ "CAD")) := by
      rintro (⟨_, h2⟩ | ⟨h1, _⟩)
      · exact hc2 h2
      · exact h1 hc1
    have hval : FxEngine.validatePair supported b s =
        ([{ b with exchange_rate := some (FxEngine.computedRate b s) }, s], []) := by
      rw [FxEngine.validatePair, if_neg hsign1, if_neg hsign2, if_neg hcur,
          if_pos hc1, if_neg (not_not_intro hc3)]
    rw [hgroup, hval]
    refine ⟨rfl, ?_⟩
    simp [hsr]
  · rintro ⟨hc1, hc2, hc3⟩
    have hcur : ¬ ((b.currency = "CAD" ∧ s.currency = "CAD") ∨
        (b.currency ≠ "CAD" ∧ s.currency ≠ "CAD")) := by
      rintro (⟨h1, _⟩ | ⟨_, h2⟩)
      · exact hc2 h1
      · exact h2 hc1
    have hval : FxEngine.validatePair supported b s =
        ([b, { s with exchange_rate := some (FxEngine.computedRate s b) }], []) := by
      rw [FxEngine.validatePair, if_neg hsign1, if_neg hsign2, if_neg hcur,
          if_neg hc2, if_neg (not_not_intro hc3)]
    rw [hgroup, hval]
    refine ⟨rfl, ?_⟩
    simp [hbr]
  · intro legs hne hall
    rcases hall with hallB | hallS
    · have hbuys : legs.filter (fun l => l.action == Txlib.Action.BUY) = legs :=
        List.filter_eq_self.mpr (fun l hl => by simp [hallB l hl])
      have hsells : legs.filter (fun l => l.action == Txlib.Action.SELL) = [] :=
        List.filter_eq_nil_iff.mpr (fun l hl => by simp [hallB l hl])
      rw [FxEngine.pairGroup]
      rw [hbuys, hsells]
      rcases legs with _ | ⟨a, _ | ⟨a2, tl⟩⟩
      · exact absurd rfl hne
      · rfl
      · simp
    · have hbuys : legs.filter (fun l => l.action == Txlib.Action.BUY) = [] :=
        List.filter_eq_nil_iff.mpr (fun l hl => by simp [hallS l hl])
      have hsells : legs.filter (fun l => l.action == Txlib.Action.SELL) = legs :=
        List.filter_eq_self.mpr (fun l hl => by simp [hallS l hl])
      rw [FxEngine.pairGroup]
      rw [hbuys, hsells]
      rcases legs with _ | ⟨a, _ | ⟨a2, tl⟩⟩
      · exact absurd rfl hne
      · rfl
      · simp

/-- Witness for C1: a CAD BUY leg of 1300.0 against a USD SELL leg of
-1300.0 pairs up, both legs are emitted and only the CAD leg carries
the computed rate. -/
theorem c1_fx_pairing_witness :
    FxEngine.pairGroup ["USD"]
      [⟨.BUY, "CAD", mkRat 13000 10, none⟩, ⟨.SELL, "USD", mkRat (-13000) 10, none⟩] =
      ([{ (⟨.BUY, "CAD", mkRat 13000 10, none⟩ : FxEngine.FxLeg) with
            exchange_rate := some (FxEngine.computedRate
              ⟨.BUY, "CAD", mkRat 13000 10, none⟩
              ⟨.SELL, "USD", mkRat (-13000) 10, none⟩) },
        ⟨.SELL, "USD", mkRat (-13000) 10, none⟩], []) ∧
    ((FxEngine.pairGroup ["USD"]
      [⟨.BUY, "CAD", mkRat 13000 10, none⟩,
       ⟨.SELL, "USD", mkRat (-13000) 10, none⟩]).1.filter
        (fun l => l.exchange_rate.isSome)).length = 1 :=
  (c1_fx_pairing ["USD"]
    ⟨.BUY, "CAD", mkRat 13000 10, none⟩
    ⟨.SELL, "USD", mkRat (-13000) 10, none⟩
    rfl rfl rfl rfl (by decide) (by decide)).1
    ⟨rfl, by decide, by decide⟩

/-- The state reached by one line depends only on the matcher table, not
on the remembered converter. -/
theorem step_fst (st : Fmv.SState) (conv conv2 : Fmv.Matcher) (line : String) :
    (Fmv.step st conv line).1 = (Fmv.step st conv2 line).1 := by
  rcases h : (Fmv.STATES st).find? (fun p => p.1.match_line line) with _ | p <;>
    simp [Fmv.step, h]

/-- When the line loop returns without raising, its final state is the
pure state trace of the matcher table. -/
theorem runLines_finalState :
    ∀ (lines : List String) (st : Fmv.SState) (conv : Fmv.Matcher)
      (acc : Fmv.PState) (fmvs : List Fmv.FMV) (st2 : Fmv.SState)
      (fmvs2 : List Fmv.FMV),
      Fmv.runLines st conv acc fmvs lines = .ok (st2, fmvs2) →
      Fmv.finalState st lines = st2 := by
  intro lines
  induction lines with
  | nil =>
    intro st conv acc fmvs st2 fmvs2 h
    rw [Fmv.runLines] at h
    rw [Fmv.finalState]
    simp at h
    exact h.1
  | cons l rest ih =>
    intro st conv acc fmvs st2 fmvs2 h
    rw [Fmv.runLines] at h
    rw [Fmv.finalState]
    rcases hstep : Fmv.step st conv (PyPrim.pyStrip l) with ⟨st3, conv3⟩
    rw [hstep] at h
    simp only [] at h
    have hfst : (Fmv.step st Fmv.Matcher.nullM (PyPrim.pyStrip l)).1 = st3 := by
      rw [step_fst st Fmv.Matcher.nullM conv (PyPrim.pyStrip l), hstep]
    simp only [hfst]
    by_cases h1 : st3 = Fmv.SState.done
    · rw [if_pos h1] at h
      rw [if_pos h1]
      simp at h
      exact h.1
    · rw [if_neg h1] at h ⊢
      by_cases h2 : st3 = Fmv.SState.security
      · rw [if_pos h2] at h
        exact ih _ _ _ _ _ _ h
      · rw [if_neg h2] at h
        by_cases h3 : st3 = Fmv.SState.allocation
        · rw [if_pos h3] at h
          by_cases h4 : acc.allocation.isSome
          · rw [if_pos h4] at h
            exact absurd h (by simp)
          · rw [if_neg h4] at h
            rcases hconv : conv3.conv (PyPrim.pyStrip l) with e | d <;>
              (rw [hconv] at h; simp only [] at h)
            · exact absurd h (by simp)
            · exact ih _ _ _ _ _ _ h
        · rw [if_neg h3] at h
          by_cases h5 : st3 = Fmv.SState.marketValue
          · rw [if_pos h5] at h
            by_cases h6 : acc.fmv.isSome
            · rw [if_pos h6] at h
              exact absurd h (by simp)
            · rw [if_neg h6] at h
              rcases hconv : conv3.conv (PyPrim.pyStrip l) with e | d <;>
                (rw [hconv] at h; simp only [] at h)
              · exact absurd h (by simp)
              · rcases hf : Fmv.PState.to_fmv
                    ⟨acc.security, acc.allocation, some d⟩ with e2 | f <;>
                  (rw [hf] at h; simp only [] at h)
                · exact absurd h (by simp)
                · exact ih _ _ _ _ _ _ h
          · rw [if_neg h5] at h
            exact ih _ _ _ _ _ _ h

/-- When the statement-month anchor is found on no page, the page loop
raises no matter what else the pages hold. -/
theorem parsePages_month_error :
    ∀ (pages : List Fmv.Page) (fmvs : List Fmv.FMV) (month : Option String),
      Fmv.monthOf month pages = none →
      ∃ e, Fmv.parsePages pages fmvs month = .error e := by
  intro pages
  induction pages with
  | nil =>
    intro fmvs month h
    rw [Fmv.monthOf] at h
    subst h
    exact ⟨_, rfl⟩
  | cons p rest ih =>
    intro fmvs month h
    rw [Fmv.monthOf] at h
    rw [Fmv.parsePages]
    by_cases hp : p.hasTable
    · rw [if_pos hp]
      rcases hr : Fmv.runLines .start .nullM ⟨[], none, none⟩ fmvs p.lines with
        e | ⟨st, fmvs2⟩
      · exact ⟨e, rfl⟩
      · simp only []
        by_cases hd : st = Fmv.SState.done
        · rw [if_pos hd]
          exact ih fmvs2 _ h
        · rw [if_neg hd]
          exact ⟨_, rfl⟩
    · rw [if_neg hp]
      exact ih fmvs _ h

/-- When some page holds the securities-owned table but its line trace
never reaches done, the page loop raises. -/
theorem parsePages_table_error :
    ∀ (pages : List Fmv.Page) (fmvs : List Fmv.FMV) (month : Option String),
      (∃ p ∈ pages, p.hasTable = true ∧ Fmv.finalState .start p.lines ≠ .done) →
      ∃ e, Fmv.parsePages pages fmvs month = .error e := by
  intro pages
  induction pages with
  | nil =>
    intro fmvs month h
    rcases h with ⟨p, hp, _⟩
    exact absurd hp (List.not_mem_nil p)
  | cons p rest ih =>
    intro fmvs month h
    rw [Fmv.parsePages]
    rcases h with ⟨pw, hmem, hpt, hpf⟩
    rcases List.mem_cons.mp hmem with rfl | hmem2
    · rw [if_pos hpt]
      rcases hr : Fmv.runLines .start .nullM ⟨[], none, none⟩ fmvs pw.lines with
        e | ⟨st, fmvs2⟩
      · exact ⟨e, rfl⟩
      · simp only []
        have hst : st ≠ Fmv.SState.done := by
          rw [← runLines_finalState pw.lines _ _ _ _ _ _ hr]
          exact hpf
        rw [if_neg hst]
        exact ⟨_, rfl⟩
    · by_cases hp2 : p.hasTable
      · rw [if_pos hp2]
        rcases hr : Fmv.runLines .start .nullM ⟨[], none, none⟩ fmvs p.lines with
          e | ⟨st, fmvs2⟩
        · exact ⟨e, rfl⟩
        · simp only []
          by_cases hd : st = Fmv.SState.done
          · rw [if_pos hd]
            exact ih fmvs2 _ ⟨pw, hmem2, hpt, hpf⟩
          · rw [if_neg hd]
            exact ⟨_, rfl⟩
      · rw [if_neg hp2]
        exact ih fmvs _ ⟨pw, hmem2, hpt, hpf⟩

/-- C7: FMV fatal-error policy: when any page with a securities-owned
table never drives the state machine to its terminal done state, or the
statement-month anchor is found nowhere in the document, parse_pdf of
that file raises instead of returning, so not a single FMV entry is
emitted for the file. -/
theorem c7_fmv_fatal_error (pages : List Fmv.Page)
    (h : (∃ p ∈ pages, p.hasTable = true ∧
            Fmv.finalState .start p.lines ≠ .done) ∨
         Fmv.monthOf none pages = none) :
    (Fmv.parse_pdf pages).isOk = false := by
  have hx : ∃ e, Fmv.parsePages pages [] none = .error e := by
    rcases h with h | h
    · exact parsePages_table_error pages [] none h
    · exact parsePages_month_error pages [] none h
  obtain ⟨e, he⟩ := hx
  rw [Fmv.parse_pdf, he]
  rfl

/-- Witness for C7: a one-page statement holding the table header but
missing the terminal 100.0 market-value marker produces no output. -/
theorem c7_fmv_fatal_error_witness :
    (Fmv.parse_pdf [⟨["ALLOCATION"], some "January 1, 2023", true⟩]).isOk = false :=
  c7_fmv_fatal_error [⟨["ALLOCATION"], some "January 1, 2023", true⟩]
    (Or.inl ⟨⟨["ALLOCATION"], some "January 1, 2023", true⟩,
      List.mem_singleton.mpr rfl, rfl, by decide⟩)
